import Mathlib

/-!
remote_syslog2: the file-discovery and tailing supervisor.

A shallow embedding of `remote_syslog.go` (`matchExps`, `tailOne`, `globFiles`,
`tailFiles`) and theorems about it.

Go strings are Lean `String`s (sequences of Unicode characters); the three
fixed regular expressions of `tailOne` are hand-compiled into recognisers over
the character list of the string. External collaborators (`regexp.Regexp`
values from the configuration, `filepath.Glob`, `tail.TailFile`, `time.Now`)
are parameters. A goroutine is a pending or live worker of the shared state
`Sys`. The scanner and the workers run concurrently: a schedule gives the
worker steps (`wr.Add` at the start of `tailOne`, the deferred `wr.Remove` at
its return) that happen before each `wr.Exists` read of a scan and while
`tailFiles` sleeps.
-/

namespace RemoteSyslog

/-! ## External collaborators -/

/-- A compiled regular expression from the configuration (`*regexp.Regexp`),
represented by its `MatchString` method. -/
structure Regexp where
  MatchString : String → Bool

/-- The fields of `syslog.Packet`. `syslog.Priority` is a Go `int`. -/
structure Packet where
  Severity : Int
  Facility : Int
  Time : Int
  Hostname : String
  Tag : String
  Message : String
  deriving DecidableEq, Repr

/-- The part of `syslog.Logger` that `tailOne` touches: the client host name and
the packets sent so far on the `Packets` channel, oldest first. -/
structure Logger where
  ClientHostname : String
  Packets : List Packet
  deriving DecidableEq, Repr

/-- One entry of the configuration's file list (`LogFile`): a glob pattern and a tag. -/
structure LogFile where
  Path : String
  Tag : String
  deriving DecidableEq, Repr

/-- Modelled from the spec: the type `WorkerRegistry` is declared outside
`remote_syslog.go`; the spec describes it as a mapping from file path to a
presence marker, so the model keeps the list of paths that are present. -/
structure WorkerRegistry where
  workers : List String
  deriving DecidableEq, Repr

/-- Modelled from the spec: `NewWorkerRegistry` is declared outside
`remote_syslog.go`; a fresh registry has no path in it. -/
def NewWorkerRegistry : WorkerRegistry := ⟨[]⟩

/-- Modelled from the spec: `WorkerRegistry.Exists` is declared outside
`remote_syslog.go`; it reports current membership of the path. -/
def WorkerRegistry.Exists (wr : WorkerRegistry) (worker : String) : Bool :=
  wr.workers.contains worker

/-- Modelled from the spec: `WorkerRegistry.Add` is declared outside
`remote_syslog.go`; it records that a worker for the path is active. -/
def WorkerRegistry.Add (wr : WorkerRegistry) (worker : String) : WorkerRegistry :=
  if wr.workers.contains worker then wr else ⟨worker :: wr.workers⟩

/-- Modelled from the spec: `WorkerRegistry.Remove` is declared outside
`remote_syslog.go`; it clears the path, and is a no-op on an absent path. -/
def WorkerRegistry.Remove (wr : WorkerRegistry) (worker : String) : WorkerRegistry :=
  ⟨wr.workers.filter (fun w => w != worker)⟩

/-! ## `matchExps` -/

/-- Source `matchExps`: the loop returns `true` at the first expression that
matches and `false` when the list is exhausted. -/
def matchExps (value : String) : List Regexp → Bool
  | [] => false
  | exp :: expressions => if exp.MatchString value then true else matchExps value expressions

/-! ## The fixed regular expressions of `tailOne` -/

/-- The regular expression `^/srv/([^/]+)/` run at the start of the text: the
captured group on a match. The greedy `[^/]+` takes the longest run of
characters other than `/`, which must be non-empty and followed by `/`. -/
def reGroupMatch : List Char → Option (List Char)
  | '/' :: 's' :: 'r' :: 'v' :: '/' :: rest =>
    match rest.takeWhile (fun c => c != '/'), rest.dropWhile (fun c => c != '/') with
    | [], _ => none
    | g, '/' :: _ => some g
    | _, _ => none
  | _ => none

/-- Source `reGroup.FindAllStringSubmatch(file, 1)`: at most one match, each
match being the whole matched text followed by the captured group. -/
def reGroupFindAllStringSubmatch (file : String) : List (List String) :=
  match reGroupMatch file.data with
  | some g => [["/srv/" ++ String.mk g ++ "/", String.mk g]]
  | none => []

/-- Go `path.Base`: `"."` for the empty path; otherwise trailing slashes are
removed and the text after the last remaining slash is returned, or `"/"` when
nothing remains. -/
def pathBase (path : String) : String :=
  if path = "" then "."
  else
    let stripped := (path.data.reverse.dropWhile (fun c => c == '/')).reverse
    let last := (stripped.reverse.takeWhile (fun c => c != '/')).reverse
    if last = [] then "/" else String.mk last

/-- Source `reExtension.ReplaceAllString(s, "")` for the regular expression
`\.log$`: the only possible match is a final `.log`, which is deleted. -/
def reExtensionReplaceAllString (s : String) : String :=
  match s.data.reverse with
  | 'g' :: 'o' :: 'l' :: '.' :: r => String.mk r.reverse
  | _ => s

/-- A literal character of a pattern: the rest of the text after it. -/
def reLit (c : Char) : List Char → Option (List Char)
  | [] => none
  | x :: rest => if x = c then some rest else none

/-- The pattern `\d+`: the rest of the text after the longest run of ASCII
digits, which must be non-empty. Every use is followed by a literal that is no
digit, so the longest run is the only one that can lead to a match. -/
def reDigits (l : List Char) : Option (List Char) :=
  match l.takeWhile Char.isDigit with
  | [] => none
  | _ :: _ => some (l.dropWhile Char.isDigit)

/-- The regular expression `^\[\d+-\d+-\d+ \d+-\d+-\d+\] ` run at the start of
the text: the rest of the text after the match. -/
def reTimeMatch (l : List Char) : Option (List Char) :=
  reLit '[' l >>= reDigits >>= reLit '-' >>= reDigits >>= reLit '-' >>= reDigits
    >>= reLit ' ' >>= reDigits >>= reLit '-' >>= reDigits >>= reLit '-' >>= reDigits
    >>= reLit ']' >>= reLit ' '

/-- Source `reTimePrefix.ReplaceAllString(s, "")`: the pattern is anchored at
the start of the text, so at most one match, at position 0, is deleted. -/
def reTimeReplaceAllString (s : String) : String :=
  match reTimeMatch s.data with
  | some rest => String.mk rest
  | none => s

/-! ## `tailOne` -/

/-- Source `tailOne`, lines 34-39: the group label. -/
def groupName (file : String) : String :=
  match reGroupFindAllStringSubmatch file with
  | (_ :: g :: _) :: _ => g
  | _ => ""

/-- Source `tailOne`, line 48: the category label. -/
def strSeverity (file : String) : String :=
  reExtensionReplaceAllString (pathBase file)

/-- Source `tailOne`, lines 54 and 56: `line.Text` after the time prefix is
removed and the two labels are put in front (`fmt.Sprintf("%s: %s: %s", ...)`). -/
def lineText (file : String) (line : String) : String :=
  groupName file ++ ": " ++ strSeverity file ++ ": " ++ reTimeReplaceAllString line

/-- Source `tailOne`, lines 41-43: the tag after defaulting. -/
def tagOrDash (tag : String) : String :=
  if tag = "" then "-" else tag

/-- Source `tailOne`, lines 53-70: the body of the loop for one line read at
time `now`; the result is the list of packets sent on `logger.Packets`. -/
def tailOneLine (file : String) (excludePatterns : List Regexp) (hostname : String)
    (severity facility : Int) (tag : String) (now : Int) (line : String) : List Packet :=
  let text := lineText file line
  if !matchExps text excludePatterns then
    [{ Severity := severity, Facility := facility, Time := now, Hostname := hostname,
       Tag := tag, Message := text }]
  else []

/-- Source `tailOne`, lines 52-72: the loop over `t.Lines`. `clock i` is the
reading of `time.Now()` in the iteration for the `i`-th line of the stream. -/
def tailOneLoop (file : String) (excludePatterns : List Regexp) (hostname : String)
    (severity facility : Int) (tag : String) (clock : Nat → Int) :
    Nat → List String → List Packet → List Packet
  | _, [], sent => sent
  | i, line :: lines, sent =>
    tailOneLoop file excludePatterns hostname severity facility tag clock (i + 1) lines
      (sent ++ tailOneLine file excludePatterns hostname severity facility tag (clock i) line)

/-- Source `tailOne`, run to its return. `TailFile file poll` is the result of
`tail.TailFile(file, tailConfig)`: an error, or the lines the stream delivers
before it ends. The result is the logger with the packets sent and the registry
after the deferred `wr.Remove(file)`. -/
def tailOne (TailFile : String → Bool → Except String (List String)) (clock : Nat → Int)
    (file : String) (excludePatterns : List Regexp) (logger : Logger) (wr : WorkerRegistry)
    (severity facility : Int) (poll : Bool) (tag : String) : Logger × WorkerRegistry :=
  let wr := wr.Add file
  match TailFile file poll with
  | .error _ => (logger, wr.Remove file)
  | .ok lines =>
    let tag := tagOrDash tag
    let sent := tailOneLoop file excludePatterns logger.ClientHostname severity facility tag
      clock 0 lines logger.Packets
    ({ logger with Packets := sent }, wr.Remove file)

/-! ## `globFiles`, `tailFiles` and the goroutines they create -/

/-- A goroutine created by the statement `go tailOne(file, ..., tag)`. The other
arguments of `tailOne` are the same for every goroutine of a run. -/
structure Worker where
  file : String
  tag : String
  deriving DecidableEq, Repr

/-- The state shared by the scanner and the workers: the registry, the
goroutines created by `go tailOne(...)` that have not yet executed
`wr.Add(file)`, and the workers between `wr.Add(file)` and the deferred
`wr.Remove(file)`. `spawned` is the history of the `go tailOne(...)` statements
executed so far, oldest first; no code reads it. -/
structure Sys where
  wr : WorkerRegistry
  pending : List Worker
  live : List Worker
  spawned : List Worker
  deriving DecidableEq, Repr

/-- A step of a worker goroutine that touches the shared state. -/
inductive WorkerEvent where
  /-- A pending goroutine for `w` starts `tailOne` and executes `wr.Add(file)`. -/
  | start (w : Worker)
  /-- A live worker for `w` returns from `tailOne` (tail-open failure or end of
  the line stream); the deferred `wr.Remove(file)` runs. -/
  | ret (w : Worker)
  deriving DecidableEq, Repr

/-- The effect of a worker step on the shared state; a step that names no
goroutine of the state changes nothing. -/
def workerStep (s : Sys) : WorkerEvent → Sys
  | .start w =>
    if w ∈ s.pending then
      { s with wr := s.wr.Add w.file, pending := s.pending.erase w, live := s.live ++ [w] }
    else s
  | .ret w =>
    if w ∈ s.live then { s with wr := s.wr.Remove w.file, live := s.live.erase w }
    else s

/-- A run of worker steps, in order. -/
def workerSteps (s : Sys) (evs : List WorkerEvent) : Sys :=
  evs.foldl workerStep s

/-- Source `globFiles`, lines 105-113: the `switch` for one expanded file. -/
def globFilesCase (excludedFiles : List Regexp) (tag : String) (file : String) (s : Sys) : Sys :=
  if s.wr.Exists file then s
  else if matchExps file excludedFiles then s
  else { s with pending := s.pending ++ [⟨file, tag⟩], spawned := s.spawned ++ [⟨file, tag⟩] }

/-- Source `globFiles`, lines 104-114: the loop over the files of one spec. The
scanner runs concurrently with the workers: the head of the schedule is the run
of worker steps that happen before the next `wr.Exists` read, and the rest of
the schedule is handed on. An exhausted schedule means no worker step. A worker
step that falls between a read and the `go` statement of the same iteration has
the same effect when it is placed before the next read, since the `go`
statement only appends a goroutine. -/
def globFilesInner (excludedFiles : List Regexp) (tag : String) :
    List String → List (List WorkerEvent) → Sys → Sys × List (List WorkerEvent)
  | [], sched, s => (s, sched)
  | file :: files, sched, s =>
    globFilesInner excludedFiles tag files sched.tail
      (globFilesCase excludedFiles tag file (workerSteps s (sched.headD [])))

/-- Source `globFiles`, lines 96-102: `Glob path` is the result of
`filepath.Glob(utils.ResolvePath(path))` on the current file system; on an error
`files` is `nil`. The log messages are not modelled. -/
def globbed (Glob : String → Except String (List String)) (path : String) : List String :=
  match Glob path with
  | .error _ => []
  | .ok files => files

/-- Source `globFiles`: one scan under a schedule of worker steps, one run of
steps before each `wr.Exists` read. The scanner only reads the registry; the
goroutines it creates register themselves when they are scheduled. -/
def globFiles (Glob : String → Except String (List String)) (excludedFiles : List Regexp) :
    List LogFile → List (List WorkerEvent) → Sys → Sys × List (List WorkerEvent)
  | [], sched, s => (s, sched)
  | glob :: globs, sched, s =>
    let tag := glob.Tag
    let files := globbed Glob glob.Path
    let r := globFilesInner excludedFiles tag files sched s
    globFiles Glob excludedFiles globs r.2 r.1

/-- Source `tailFiles`, lines 83-87, from a given state: one iteration per
round, each made of a `globFiles` scan under the round's schedule followed by
the worker steps that happen while the loop sleeps. -/
def tailFilesLoop (Glob : String → Except String (List String)) (globs : List LogFile)
    (excludedFiles : List Regexp) :
    List (List (List WorkerEvent) × List WorkerEvent) → Sys → Sys
  | [], s => s
  | round :: rounds, s =>
    tailFilesLoop Glob globs excludedFiles rounds
      (workerSteps (globFiles Glob excludedFiles globs round.1 s).1 round.2)

/-- Source `tailFiles`: the loop started on `NewWorkerRegistry()`. -/
def tailFiles (Glob : String → Except String (List String)) (globs : List LogFile)
    (excludedFiles : List Regexp) (rounds : List (List (List WorkerEvent) × List WorkerEvent)) :
    Sys :=
  tailFilesLoop Glob globs excludedFiles rounds ⟨NewWorkerRegistry, [], [], []⟩

/-! ## Descriptions used in the statements -/

/-- The expanded paths of a list of specs in scan order, each with the tag of
the spec that produced it. -/
def expansions (Glob : String → Except String (List String)) : List LogFile → List (String × String)
  | [] => []
  | glob :: globs => (globbed Glob glob.Path).map (fun f => (f, glob.Tag)) ++ expansions Glob globs

/-- The states in which the successive `wr.Exists` reads of a scan happen, for
the expanded paths `exps` in scan order: before each read the worker steps
scheduled there have run, after it the `switch` of the scanner. -/
def scanStates (excludedFiles : List Regexp) :
    List (String × String) → List (List WorkerEvent) → Sys → List Sys
  | [], _, _ => []
  | v :: exps, sched, s =>
    workerSteps s (sched.headD []) ::
      scanStates excludedFiles exps sched.tail
        (globFilesCase excludedFiles v.2 v.1 (workerSteps s (sched.headD [])))

/-- A scan written as one loop over the expanded paths `exps` in scan order. -/
def scanFold (excludedFiles : List Regexp) :
    List (String × String) → List (List WorkerEvent) → Sys → Sys × List (List WorkerEvent)
  | [], sched, s => (s, sched)
  | v :: exps, sched, s =>
    scanFold excludedFiles exps sched.tail
      (globFilesCase excludedFiles v.2 v.1 (workerSteps s (sched.headD [])))

/-- A non-empty run of ASCII decimal digits. -/
def IsDigits (d : String) : Prop :=
  d ≠ "" ∧ ∀ c ∈ d.data, c.isDigit = true

/-- A text that starts with `[d-d-d d-d-d] `, each `d` a non-empty run of digits. -/
def HasTimeStamp (line : String) : Prop :=
  ∃ d1 d2 d3 d4 d5 d6 rest : String,
    IsDigits d1 ∧ IsDigits d2 ∧ IsDigits d3 ∧ IsDigits d4 ∧ IsDigits d5 ∧ IsDigits d6 ∧
    line = "[" ++ d1 ++ "-" ++ d2 ++ "-" ++ d3 ++ " " ++ d4 ++ "-" ++ d5 ++ "-" ++ d6 ++ "] " ++ rest

/-- A path of the form `/srv/<segment>/...`, the segment non-empty and without `/`. -/
def HasGroup (file : String) : Prop :=
  ∃ g rest : String, g ≠ "" ∧ '/' ∉ g.data ∧ file = "/srv/" ++ g ++ "/" ++ rest

/-- The configuration pattern `^boom`: it matches the texts that start with `boom`. -/
def reBoom : Regexp := ⟨fun s => "boom".data.isPrefixOf s.data⟩

/-- The configuration pattern `bang$`: it matches the texts that end with `bang`. -/
def reBang : Regexp := ⟨fun s => "bang".data.isSuffixOf s.data⟩

/-- A file-system snapshot that holds the one file `/srv/appA/exception.log`:
the patterns `/srv/appA/*.log` and `/srv/*/exception.log` expand to it, every
other pattern expands to nothing. -/
def oneFile : String → Except String (List String) :=
  fun pattern =>
    if pattern = "/srv/appA/*.log" ∨ pattern = "/srv/*/exception.log" then
      .ok ["/srv/appA/exception.log"]
    else .ok []

/-- A file-system snapshot that holds the two files `/srv/appA/error.log` and
`/srv/appA/exception.log`, to which the pattern `/srv/appA/*.log` expands. -/
def twoFiles : String → Except String (List String) :=
  fun pattern =>
    if pattern = "/srv/appA/*.log" then
      .ok ["/srv/appA/error.log", "/srv/appA/exception.log"]
    else .ok []

/-! ## `matchExps` -/

theorem matchExps_eq_true_iff (value : String) (expressions : List Regexp) :
    matchExps value expressions = true ↔ ∃ e ∈ expressions, e.MatchString value = true := by
  induction expressions with
  | nil => simp [matchExps]
  | cons e es ih =>
    by_cases h : e.MatchString value = true
    · simp [matchExps, h]
    · simp [matchExps, h, ih]

theorem matchExps_eq_false_iff (value : String) (expressions : List Regexp) :
    matchExps value expressions = false ↔ ∀ e ∈ expressions, e.MatchString value = false := by
  rw [← Bool.not_eq_true, matchExps_eq_true_iff]
  simp

/-- C6: `matchExps` returns `true` exactly when at least one expression of the
list matches the value, and returns `false` on the empty list. -/
theorem matchExps_spec (value : String) (expressions : List Regexp) :
    (matchExps value expressions = true ↔ ∃ e ∈ expressions, e.MatchString value = true)
      ∧ matchExps value [] = false :=
  ⟨matchExps_eq_true_iff value expressions, rfl⟩

/-! ## The worker registry -/

theorem WorkerRegistry.exists_remove (wr : WorkerRegistry) (p q : String) :
    (wr.Remove p).Exists q = (wr.Exists q && (q != p)) := by
  simp only [WorkerRegistry.Remove, WorkerRegistry.Exists]
  rw [Bool.eq_iff_iff]
  simp [List.mem_filter]

theorem WorkerRegistry.exists_add (wr : WorkerRegistry) (p q : String) :
    (wr.Add p).Exists q = (wr.Exists q || (q == p)) := by
  unfold WorkerRegistry.Add
  split
  · rename_i h
    rw [Bool.eq_iff_iff]
    simp only [WorkerRegistry.Exists, Bool.or_eq_true, beq_iff_eq]
    constructor
    · exact Or.inl
    · rintro (h1 | rfl)
      · exact h1
      · exact h
  · rw [Bool.eq_iff_iff]
    simp only [WorkerRegistry.Exists, List.contains_cons, Bool.or_eq_true, beq_iff_eq]
    exact or_comm

theorem NewWorkerRegistry_exists (p : String) : NewWorkerRegistry.Exists p = false := rfl

/-! ## `tailOne` -/

theorem tailOne_registry (TailFile : String → Bool → Except String (List String))
    (clock : Nat → Int) (file : String) (excludePatterns : List Regexp) (logger : Logger)
    (wr : WorkerRegistry) (severity facility : Int) (poll : Bool) (tag : String) :
    (tailOne TailFile clock file excludePatterns logger wr severity facility poll tag).2
      = (wr.Add file).Remove file := by
  unfold tailOne
  cases TailFile file poll <;> rfl

/-- C2: after `tailOne` returns, on a tail-open failure as well as at the end of
the line stream, the path of the worker is not in the registry and the
membership of every other path is what it was before the call. -/
theorem tailOne_no_leaked_registration (TailFile : String → Bool → Except String (List String))
    (clock : Nat → Int) (p : String) (excludePatterns : List Regexp) (logger : Logger)
    (wr : WorkerRegistry) (severity facility : Int) (poll : Bool) (tag : String) :
    (tailOne TailFile clock p excludePatterns logger wr severity facility poll tag).2.Exists p
        = false
      ∧ ∀ q, q ≠ p →
        (tailOne TailFile clock p excludePatterns logger wr severity facility poll tag).2.Exists q
          = wr.Exists q := by
  rw [tailOne_registry]
  constructor
  · simp [WorkerRegistry.exists_remove]
  · intro q hq
    have h1 : (q == p) = false := by simpa using hq
    have h2 : (q != p) = true := by simpa using hq
    simp [WorkerRegistry.exists_remove, WorkerRegistry.exists_add, h1, h2]

theorem tailOne_no_leaked_registration_witness :
    (tailOne (fun _ _ => .error "permission denied") (fun _ => 0) "/srv/appA/exception.log" []
        ⟨"host", []⟩ ⟨["/var/log/syslog"]⟩ 5 23 false "").2.Exists "/srv/appA/exception.log"
        = false
      ∧ (tailOne (fun _ _ => .error "permission denied") (fun _ => 0) "/srv/appA/exception.log" []
        ⟨"host", []⟩ ⟨["/var/log/syslog"]⟩ 5 23 false "").2.Exists "/var/log/syslog" = true :=
  ⟨(tailOne_no_leaked_registration _ _ _ _ _ _ _ _ _ _).1,
   ((tailOne_no_leaked_registration (fun _ _ => .error "permission denied") (fun _ => 0)
      "/srv/appA/exception.log" [] ⟨"host", []⟩ ⟨["/var/log/syslog"]⟩ 5 23 false "").2
      "/var/log/syslog" (by decide)).trans (by decide)⟩

theorem tailOneLoop_append (file : String) (excludePatterns : List Regexp) (hostname : String)
    (severity facility : Int) (tag : String) (clock : Nat → Int) (lines : List String) :
    ∀ (i : Nat) (sent : List Packet),
      tailOneLoop file excludePatterns hostname severity facility tag clock i lines sent
        = sent ++ tailOneLoop file excludePatterns hostname severity facility tag clock i lines [] := by
  induction lines with
  | nil => intro i sent; simp [tailOneLoop]
  | cons line lines ih =>
    intro i sent
    simp only [tailOneLoop]
    rw [ih (i + 1) (sent ++ _), ih (i + 1) ([] ++ _)]
    simp

theorem tailOneLine_message (file : String) (excludePatterns : List Regexp) (hostname : String)
    (severity facility : Int) (tag : String) (now : Int) (line : String) :
    (tailOneLine file excludePatterns hostname severity facility tag now line).map Packet.Message
      = [lineText file line].filter (fun t => !matchExps t excludePatterns) := by
  unfold tailOneLine
  cases h : matchExps (lineText file line) excludePatterns <;> simp [h]

theorem tailOneLoop_messages (file : String) (excludePatterns : List Regexp) (hostname : String)
    (severity facility : Int) (tag : String) (clock : Nat → Int) (lines : List String) :
    ∀ i : Nat,
      (tailOneLoop file excludePatterns hostname severity facility tag clock i lines []).map
          Packet.Message
        = (lines.map (lineText file)).filter (fun t => !matchExps t excludePatterns) := by
  induction lines with
  | nil => intro i; simp [tailOneLoop]
  | cons line lines ih =>
    intro i
    simp only [tailOneLoop]
    rw [tailOneLoop_append, List.map_append, ih (i + 1), List.nil_append, tailOneLine_message,
      List.map_cons, ← List.filter_append]
    rfl

theorem tailOneLoop_fields (file : String) (excludePatterns : List Regexp) (hostname : String)
    (severity facility : Int) (tag : String) (clock : Nat → Int) (lines : List String) :
    ∀ i : Nat,
      ∀ p ∈ tailOneLoop file excludePatterns hostname severity facility tag clock i lines [],
        p.Tag = tag ∧ p.Severity = severity ∧ p.Facility = facility := by
  induction lines with
  | nil => intro i p hp; simp [tailOneLoop] at hp
  | cons line lines ih =>
    intro i p hp
    simp only [tailOneLoop] at hp
    rw [tailOneLoop_append, List.mem_append] at hp
    rcases hp with hp | hp
    · simp only [List.nil_append, tailOneLine] at hp
      split at hp
      · simp only [List.mem_singleton] at hp
        subst hp
        exact ⟨rfl, rfl, rfl⟩
      · simp at hp
    · exact ih (i + 1) p hp

theorem tailOne_packets (TailFile : String → Bool → Except String (List String))
    (clock : Nat → Int) (file : String) (excludePatterns : List Regexp) (logger : Logger)
    (wr : WorkerRegistry) (severity facility : Int) (poll : Bool) (tag : String)
    (lines : List String) (h : TailFile file poll = .ok lines) :
    (tailOne TailFile clock file excludePatterns logger wr severity facility poll tag).1.Packets
      = logger.Packets ++ tailOneLoop file excludePatterns logger.ClientHostname severity facility
          (tagOrDash tag) clock 0 lines [] := by
  unfold tailOne
  rw [h]
  simp only
  rw [tailOneLoop_append]

/-- C3, as stated, fails: the line `boom` matches the content-exclusion pattern
`^boom`, yet a packet is sent for it, because the pattern is run on the text
`appA: exception: boom` and not on the line that was read. -/
theorem tailOneLine_line_match_still_sent :
    matchExps "boom" [reBoom] = true
      ∧ tailOneLine "/srv/appA/exception.log" [reBoom] "host" 5 23 "-" 0 "boom"
        = [⟨5, 23, 0, "host", "-", "appA: exception: boom"⟩] := by
  decide

/-- C3, amended: for every line read by `tailOne`, if the final text of the line
(time prefix removed, labels in front) matches no content-exclusion pattern,
exactly one packet is sent and its message is that final text; if the final text
matches some pattern, no packet is sent. -/
theorem tailOneLine_sends_iff_text_not_excluded (file : String) (excludePatterns : List Regexp)
    (hostname : String) (severity facility : Int) (tag : String) (now : Int) (line : String) :
    (matchExps (lineText file line) excludePatterns = false →
        ∃ p, tailOneLine file excludePatterns hostname severity facility tag now line = [p]
          ∧ p.Message = lineText file line)
      ∧ (matchExps (lineText file line) excludePatterns = true →
        tailOneLine file excludePatterns hostname severity facility tag now line = []) := by
  constructor
  · intro h
    refine ⟨⟨severity, facility, now, hostname, tag, lineText file line⟩, ?_, rfl⟩
    unfold tailOneLine
    simp [h]
  · intro h
    unfold tailOneLine
    simp [h]

theorem tailOneLine_sends_iff_text_not_excluded_witness :
    (∃ p, tailOneLine "/srv/appA/exception.log" [reBoom] "host" 5 23 "-" 0 "boom" = [p]
        ∧ p.Message = lineText "/srv/appA/exception.log" "boom")
      ∧ tailOneLine "/srv/boom/app.log" [reBoom] "host" 5 23 "-" 0 "x" = [] :=
  ⟨(tailOneLine_sends_iff_text_not_excluded "/srv/appA/exception.log" [reBoom] "host" 5 23 "-" 0
      "boom").1 (by decide),
   (tailOneLine_sends_iff_text_not_excluded "/srv/boom/app.log" [reBoom] "host" 5 23 "-" 0 "x").2
      (by decide)⟩

/-- C9: when the tail stream delivers the finite sequence `lines`, the messages
of the packets `tailOne` sends are the final texts of the lines in the order
read, without those whose final text matches a content-exclusion pattern; the
packets already on the channel stay in front, and the messages sent form a
subsequence of the final texts (nothing is sent twice or out of order). -/
theorem tailOne_messages_in_order (TailFile : String → Bool → Except String (List String))
    (clock : Nat → Int) (file : String) (excludePatterns : List Regexp) (logger : Logger)
    (wr : WorkerRegistry) (severity facility : Int) (poll : Bool) (tag : String)
    (lines : List String) (h : TailFile file poll = .ok lines) :
    (tailOne TailFile clock file excludePatterns logger wr severity facility poll tag).1.Packets.take
        logger.Packets.length = logger.Packets
      ∧ ((tailOne TailFile clock file excludePatterns logger wr severity facility poll
            tag).1.Packets.drop logger.Packets.length).map Packet.Message
          = (lines.map (lineText file)).filter (fun t => !matchExps t excludePatterns)
      ∧ (((tailOne TailFile clock file excludePatterns logger wr severity facility poll
            tag).1.Packets.drop logger.Packets.length).map Packet.Message).Sublist
          (lines.map (lineText file)) := by
  rw [tailOne_packets TailFile clock file excludePatterns logger wr severity facility poll tag
    lines h]
  rw [List.take_left, List.drop_left, tailOneLoop_messages]
  exact ⟨rfl, rfl, List.filter_sublist _⟩

theorem tailOne_messages_in_order_witness :
    (tailOne (fun _ _ => .ok ["[2024-01-02 03-04-05] boom", "bang", "[1-2-3 4-5-6] bang", "last"])
        (fun i => i) "/srv/appA/exception.log" [reBang] ⟨"host", []⟩ NewWorkerRegistry 5 23 false
        "").1.Packets.map Packet.Message
      = ["appA: exception: boom", "appA: exception: last"] := by
  have h := (tailOne_messages_in_order (fun _ _ => .ok ["[2024-01-02 03-04-05] boom", "bang",
    "[1-2-3 4-5-6] bang", "last"]) (fun i => i) "/srv/appA/exception.log" [reBang] ⟨"host", []⟩
    NewWorkerRegistry 5 23 false "" _ rfl).2.1
  exact h.trans (by decide)

/-- C10: every packet `tailOne` sends carries the tag `-` when the tag passed to
`tailOne` is empty and the given tag otherwise, and carries the severity and the
facility passed to `tailOne`. -/
theorem tailOne_packet_fields (TailFile : String → Bool → Except String (List String))
    (clock : Nat → Int) (file : String) (excludePatterns : List Regexp) (logger : Logger)
    (wr : WorkerRegistry) (severity facility : Int) (poll : Bool) (tag : String)
    (lines : List String) (h : TailFile file poll = .ok lines) :
    ∀ p ∈ (tailOne TailFile clock file excludePatterns logger wr severity facility poll
        tag).1.Packets.drop logger.Packets.length,
      (tag = "" → p.Tag = "-") ∧ (tag ≠ "" → p.Tag = tag)
        ∧ p.Severity = severity ∧ p.Facility = facility := by
  rw [tailOne_packets TailFile clock file excludePatterns logger wr severity facility poll tag
    lines h, List.drop_left]
  intro p hp
  obtain ⟨h1, h2, h3⟩ := tailOneLoop_fields file excludePatterns logger.ClientHostname severity
    facility (tagOrDash tag) clock lines 0 p hp
  refine ⟨?_, ?_, h2, h3⟩
  · intro ht
    rw [h1, ht]
    rfl
  · intro ht
    rw [h1]
    unfold tagOrDash
    simp [ht]

theorem tailOne_packet_fields_witness :
    (tailOne (fun _ _ => .ok ["boom"]) (fun _ => 7) "/srv/appA/exception.log" [] ⟨"host", []⟩
        NewWorkerRegistry 5 23 false "").1.Packets
        = [⟨5, 23, 7, "host", "-", "appA: exception: boom"⟩]
      ∧ (tailOne (fun _ _ => .ok ["boom"]) (fun _ => 7) "/srv/appA/exception.log" [] ⟨"host", []⟩
        NewWorkerRegistry 5 23 false "custom").1.Packets
        = [⟨5, 23, 7, "host", "custom", "appA: exception: boom"⟩]
      ∧ (⟨5, 23, 7, "host", "-", "appA: exception: boom"⟩ : Packet).Tag = "-"
      ∧ (⟨5, 23, 7, "host", "custom", "appA: exception: boom"⟩ : Packet).Tag = "custom" :=
  ⟨by decide, by decide,
   (tailOne_packet_fields (fun _ _ => .ok ["boom"]) (fun _ => 7) "/srv/appA/exception.log" []
      ⟨"host", []⟩ NewWorkerRegistry 5 23 false "" ["boom"] rfl _ (by decide)).1 rfl,
   (tailOne_packet_fields (fun _ _ => .ok ["boom"]) (fun _ => 7) "/srv/appA/exception.log" []
      ⟨"host", []⟩ NewWorkerRegistry 5 23 false "custom" ["boom"] rfl _ (by decide)).2.1
      (by decide)⟩

/-! ## `globFiles` -/

theorem workerStep_spawned (s : Sys) (e : WorkerEvent) :
    (workerStep s e).spawned = s.spawned := by
  cases e <;> simp only [workerStep] <;> split <;> rfl

theorem workerSteps_spawned (evs : List WorkerEvent) :
    ∀ s : Sys, (workerSteps s evs).spawned = s.spawned := by
  induction evs with
  | nil => intro s; rfl
  | cons e evs ih =>
    intro s
    exact (ih (workerStep s e)).trans (workerStep_spawned s e)

theorem workerStep_exists (s : Sys) (e : WorkerEvent) (p : String)
    (hreg : s.wr.Exists p = true) (hret : ∀ w : Worker, e = .ret w → w.file ≠ p) :
    (workerStep s e).wr.Exists p = true := by
  cases e with
  | start w =>
    simp only [workerStep]
    split
    · simp [WorkerRegistry.exists_add, hreg]
    · exact hreg
  | ret w =>
    simp only [workerStep]
    split
    · have hne : p ≠ w.file := fun h => hret w rfl h.symm
      simp [WorkerRegistry.exists_remove, hreg, hne]
    · exact hreg

theorem workerSteps_exists (p : String) (evs : List WorkerEvent) :
    ∀ s : Sys, s.wr.Exists p = true → (∀ w : Worker, WorkerEvent.ret w ∈ evs → w.file ≠ p) →
      (workerSteps s evs).wr.Exists p = true := by
  induction evs with
  | nil => intro s hreg _; exact hreg
  | cons e evs ih =>
    intro s hreg hret
    apply ih (workerStep s e)
    · apply workerStep_exists s e p hreg
      intro w hw
      exact hret w (hw ▸ List.mem_cons_self _ _)
    · intro w hw
      exact hret w (List.mem_cons_of_mem _ hw)

theorem globFilesCase_wr (excludedFiles : List Regexp) (tag file : String) (s : Sys) :
    (globFilesCase excludedFiles tag file s).wr = s.wr := by
  unfold globFilesCase
  split
  · rfl
  · split <;> rfl

theorem globFilesCase_spawned (excludedFiles : List Regexp) (tag file : String) (s : Sys) :
    (globFilesCase excludedFiles tag file s).spawned
      = s.spawned ++ ([((file, tag), s)].filter (fun x =>
          !x.2.wr.Exists x.1.1 && !matchExps x.1.1 excludedFiles)).map
            (fun x => Worker.mk x.1.1 x.1.2) := by
  unfold globFilesCase
  by_cases h1 : s.wr.Exists file = true
  · simp [h1]
  · by_cases h2 : matchExps file excludedFiles = true
    · simp [h1, h2]
    · simp [h1, h2]

theorem scanFold_append (excludedFiles : List Regexp) (a b : List (String × String)) :
    ∀ (sched : List (List WorkerEvent)) (s : Sys),
      scanFold excludedFiles (a ++ b) sched s
        = scanFold excludedFiles b (scanFold excludedFiles a sched s).2
            (scanFold excludedFiles a sched s).1 := by
  induction a with
  | nil => intro sched s; rfl
  | cons v a ih =>
    intro sched s
    simp only [List.cons_append, scanFold]
    exact ih _ _

theorem globFilesInner_eq_scanFold (excludedFiles : List Regexp) (tag : String)
    (files : List String) :
    ∀ (sched : List (List WorkerEvent)) (s : Sys),
      globFilesInner excludedFiles tag files sched s
        = scanFold excludedFiles (files.map (fun f => (f, tag))) sched s := by
  induction files with
  | nil => intro sched s; rfl
  | cons file files ih =>
    intro sched s
    simp only [globFilesInner, List.map_cons, scanFold]
    rw [ih]

theorem globFiles_eq_scanFold (Glob : String → Except String (List String))
    (excludedFiles : List Regexp) (globs : List LogFile) :
    ∀ (sched : List (List WorkerEvent)) (s : Sys),
      globFiles Glob excludedFiles globs sched s
        = scanFold excludedFiles (expansions Glob globs) sched s := by
  induction globs with
  | nil => intro sched s; rfl
  | cons glob globs ih =>
    intro sched s
    simp only [globFiles, expansions]
    rw [ih, globFilesInner_eq_scanFold, scanFold_append]

theorem scanFold_spawned (excludedFiles : List Regexp) (exps : List (String × String)) :
    ∀ (sched : List (List WorkerEvent)) (s : Sys),
      (scanFold excludedFiles exps sched s).1.spawned
        = s.spawned ++ ((exps.zip (scanStates excludedFiles exps sched s)).filter (fun x =>
            !x.2.wr.Exists x.1.1 && !matchExps x.1.1 excludedFiles)).map
              (fun x => Worker.mk x.1.1 x.1.2) := by
  induction exps with
  | nil => intro sched s; simp [scanFold, scanStates]
  | cons v exps ih =>
    intro sched s
    simp only [scanFold, scanStates, List.zip_cons_cons]
    rw [ih, globFilesCase_spawned, workerSteps_spawned, List.append_assoc, ← List.map_append,
      ← List.filter_append]
    rfl

theorem scanStates_exists (excludedFiles : List Regexp) (p : String)
    (exps : List (String × String)) :
    ∀ (sched : List (List WorkerEvent)) (s : Sys), s.wr.Exists p = true →
      (∀ evs ∈ sched, ∀ w : Worker, WorkerEvent.ret w ∈ evs → w.file ≠ p) →
      ∀ st ∈ scanStates excludedFiles exps sched s, st.wr.Exists p = true := by
  induction exps with
  | nil => intro sched s _ _ st hst; simp [scanStates] at hst
  | cons v exps ih =>
    intro sched s hreg hret st hst
    have hhead : (workerSteps s (sched.headD [])).wr.Exists p = true := by
      apply workerSteps_exists p _ s hreg
      cases sched with
      | nil => intro w hw; simp at hw
      | cons evs sched => exact hret evs (List.mem_cons_self _ _)
    simp only [scanStates, List.mem_cons] at hst
    rcases hst with rfl | hst
    · exact hhead
    · refine ih sched.tail _ ?_ ?_ st hst
      · rw [globFilesCase_wr]
        exact hhead
      · intro evs hevs
        exact hret evs (List.mem_of_mem_tail hevs)

theorem scanFold_new_spawned (excludedFiles : List Regexp) (exps : List (String × String))
    (sched : List (List WorkerEvent)) (s : Sys) :
    ∀ w ∈ (scanFold excludedFiles exps sched s).1.spawned.drop s.spawned.length,
      matchExps w.file excludedFiles = false ∧ (w.file, w.tag) ∈ exps
        ∧ ∃ st ∈ scanStates excludedFiles exps sched s, st.wr.Exists w.file = false := by
  rw [scanFold_spawned, List.drop_left]
  intro w hw
  simp only [List.mem_map, List.mem_filter, Bool.and_eq_true, Bool.not_eq_true'] at hw
  obtain ⟨x, ⟨hx, hreg, hex⟩, rfl⟩ := hw
  exact ⟨hex, (List.of_mem_zip hx).1, x.2, (List.of_mem_zip hx).2, hreg⟩

theorem tailFilesLoop_spawned_not_excluded (Glob : String → Except String (List String))
    (globs : List LogFile) (excludedFiles : List Regexp)
    (rounds : List (List (List WorkerEvent) × List WorkerEvent)) :
    ∀ s : Sys, (∀ w ∈ s.spawned, matchExps w.file excludedFiles = false) →
      ∀ w ∈ (tailFilesLoop Glob globs excludedFiles rounds s).spawned,
        matchExps w.file excludedFiles = false := by
  induction rounds with
  | nil => intro s hs; exact hs
  | cons round rounds ih =>
    intro s hs
    simp only [tailFilesLoop]
    apply ih
    rw [workerSteps_spawned, globFiles_eq_scanFold]
    intro w hw
    have hsplit := List.take_append_drop s.spawned.length
      (scanFold excludedFiles (expansions Glob globs) round.1 s).1.spawned
    rw [← hsplit, List.mem_append] at hw
    rcases hw with hw | hw
    · rw [scanFold_spawned, List.take_left] at hw
      exact hs w hw
    · exact (scanFold_new_spawned excludedFiles _ round.1 s w hw).1



/-- C7: in a `globFiles` scan under any schedule of the workers, the workers
spawned are, in scan order, exactly the expanded paths that at their `wr.Exists`
read are not in the registry and that match no path-exclusion pattern, each with
the tag of the spec that produced it; at a read, in whatever state it happens,
the scanner spawns a worker exactly in that case; hence no worker spawned in a
scan, and none spawned at any point of a `tailFiles` run, is for a path that
matches the path-exclusion list. -/
theorem globFiles_spawns_unregistered_unexcluded
    (Glob : String → Except String (List String)) (excludedFiles : List Regexp)
    (globs : List LogFile) (sched : List (List WorkerEvent)) (s : Sys) :
    (globFiles Glob excludedFiles globs sched s).1.spawned
        = s.spawned ++ (((expansions Glob globs).zip
            (scanStates excludedFiles (expansions Glob globs) sched s)).filter (fun x =>
              !x.2.wr.Exists x.1.1 && !matchExps x.1.1 excludedFiles)).map
                (fun x => Worker.mk x.1.1 x.1.2)
      ∧ (∀ w ∈ (globFiles Glob excludedFiles globs sched s).1.spawned.drop s.spawned.length,
          matchExps w.file excludedFiles = false ∧ (w.file, w.tag) ∈ expansions Glob globs
            ∧ ∃ st ∈ scanStates excludedFiles (expansions Glob globs) sched s,
                st.wr.Exists w.file = false)
      ∧ (∀ (t : Sys) (tag file : String),
          (t.wr.Exists file = false ∧ matchExps file excludedFiles = false →
              globFilesCase excludedFiles tag file t
                = ⟨t.wr, t.pending ++ [⟨file, tag⟩], t.live, t.spawned ++ [⟨file, tag⟩]⟩)
            ∧ (¬ (t.wr.Exists file = false ∧ matchExps file excludedFiles = false) →
              globFilesCase excludedFiles tag file t = t))
      ∧ ∀ rounds : List (List (List WorkerEvent) × List WorkerEvent),
          ∀ w ∈ (tailFiles Glob globs excludedFiles rounds).spawned,
            matchExps w.file excludedFiles = false := by
  refine ⟨?_, ?_, ?_, ?_⟩
  · rw [globFiles_eq_scanFold, scanFold_spawned]
  · rw [globFiles_eq_scanFold]
    exact scanFold_new_spawned excludedFiles _ sched s
  · intro t tag file
    constructor
    · rintro ⟨h1, h2⟩
      simp [globFilesCase, h1, h2]
    · intro h
      unfold globFilesCase
      by_cases h1 : t.wr.Exists file = true
      · simp [h1]
      · by_cases h2 : matchExps file excludedFiles = true
        · simp [h2]
        · exact absurd ⟨by simpa using h1, by simpa using h2⟩ h
  · intro rounds
    apply tailFilesLoop_spawned_not_excluded
    intro w hw
    simp at hw

theorem globFiles_spawns_unregistered_unexcluded_witness :
    (globFiles oneFile [reBang] [⟨"/srv/appA/*.log", "app"⟩, ⟨"/srv/*/exception.log", "exc"⟩]
        [[], [.start ⟨"/srv/appA/exception.log", "app"⟩]]
        ⟨NewWorkerRegistry, [], [], []⟩).1.spawned
        = [⟨"/srv/appA/exception.log", "app"⟩]
      ∧ (globFiles oneFile [reBoom, ⟨fun s => s == "/srv/appA/exception.log"⟩]
          [⟨"/srv/appA/*.log", "app"⟩] [] ⟨NewWorkerRegistry, [], [], []⟩).1.spawned = []
      ∧ (globFiles oneFile [reBang] [⟨"/srv/appA/*.log", "app"⟩]
          [[.ret ⟨"/srv/appA/exception.log", "old"⟩]]
          ⟨⟨["/srv/appA/exception.log"]⟩, [], [⟨"/srv/appA/exception.log", "old"⟩],
            [⟨"/srv/appA/exception.log", "old"⟩]⟩).1.spawned
        = [⟨"/srv/appA/exception.log", "old"⟩, ⟨"/srv/appA/exception.log", "app"⟩] :=
  ⟨(globFiles_spawns_unregistered_unexcluded oneFile [reBang]
      [⟨"/srv/appA/*.log", "app"⟩, ⟨"/srv/*/exception.log", "exc"⟩]
      [[], [.start ⟨"/srv/appA/exception.log", "app"⟩]]
      ⟨NewWorkerRegistry, [], [], []⟩).1.trans (by decide),
   (globFiles_spawns_unregistered_unexcluded oneFile
      [reBoom, ⟨fun s => s == "/srv/appA/exception.log"⟩] [⟨"/srv/appA/*.log", "app"⟩] []
      ⟨NewWorkerRegistry, [], [], []⟩).1.trans (by decide),
   (globFiles_spawns_unregistered_unexcluded oneFile [reBang] [⟨"/srv/appA/*.log", "app"⟩]
      [[.ret ⟨"/srv/appA/exception.log", "old"⟩]]
      ⟨⟨["/srv/appA/exception.log"]⟩, [], [⟨"/srv/appA/exception.log", "old"⟩],
        [⟨"/srv/appA/exception.log", "old"⟩]⟩).1.trans (by decide)⟩

/-- C8, as stated, fails: the one file of the snapshot cannot be opened for
tailing, so the worker the first scan creates registers the path, fails in
`tail.TailFile` and returns, which removes the path again; the second scan, on
the same snapshot, then creates a worker for the path once more. -/
theorem tailFiles_second_scan_respawns_after_open_failure :
    (globFiles oneFile [] [⟨"/srv/appA/*.log", ""⟩] []
        ⟨NewWorkerRegistry, [], [], []⟩).1.spawned
        = [⟨"/srv/appA/exception.log", ""⟩]
      ∧ (tailOne (fun _ _ => .error "permission denied") (fun _ => 0) "/srv/appA/exception.log"
          [] ⟨"host", []⟩ NewWorkerRegistry 5 23 false "").2 = NewWorkerRegistry
      ∧ tailFiles oneFile [⟨"/srv/appA/*.log", ""⟩] []
          [([], [.start ⟨"/srv/appA/exception.log", ""⟩, .ret ⟨"/srv/appA/exception.log", ""⟩])]
          = ⟨NewWorkerRegistry, [], [], [⟨"/srv/appA/exception.log", ""⟩]⟩
      ∧ (globFiles oneFile [] [⟨"/srv/appA/*.log", ""⟩] []
          (tailFiles oneFile [⟨"/srv/appA/*.log", ""⟩] []
            [([], [.start ⟨"/srv/appA/exception.log", ""⟩,
              .ret ⟨"/srv/appA/exception.log", ""⟩])])).1.spawned
        = [⟨"/srv/appA/exception.log", ""⟩, ⟨"/srv/appA/exception.log", ""⟩] := by
  decide

/-- C8, amended: after a first `globFiles` scan and the worker steps that follow
it, a second scan on the same file-system snapshot, under any schedule of the
workers, spawns no worker for a path that is in the registry when the second
scan starts and for which no worker returns while the second scan runs. -/
theorem globFiles_second_scan_no_respawn
    (Glob : String → Except String (List String)) (excludedFiles : List Regexp)
    (globs : List LogFile) (s : Sys) (sched1 : List (List WorkerEvent))
    (between : List WorkerEvent) (sched2 : List (List WorkerEvent)) (p : String)
    (hreg : (workerSteps (globFiles Glob excludedFiles globs sched1 s).1 between).wr.Exists p
      = true)
    (hret : ∀ evs ∈ sched2, ∀ w : Worker, WorkerEvent.ret w ∈ evs → w.file ≠ p) :
    ∀ w ∈ (globFiles Glob excludedFiles globs sched2
        (workerSteps (globFiles Glob excludedFiles globs sched1 s).1 between)).1.spawned.drop
          (workerSteps (globFiles Glob excludedFiles globs sched1 s).1 between).spawned.length,
      w.file ≠ p := by
  intro w hw hfile
  simp only [globFiles_eq_scanFold] at hw hreg
  obtain ⟨-, -, st, hst, hno⟩ := scanFold_new_spawned excludedFiles _ sched2 _ w hw
  have := scanStates_exists excludedFiles p _ sched2 _ hreg hret st hst
  rw [hfile, this] at hno
  exact Bool.noConfusion hno

theorem globFiles_second_scan_no_respawn_witness :
    (globFiles twoFiles [] [⟨"/srv/appA/*.log", ""⟩] [[.ret ⟨"/srv/appA/error.log", ""⟩]]
        (workerSteps (globFiles twoFiles [] [⟨"/srv/appA/*.log", ""⟩] []
            ⟨NewWorkerRegistry, [], [], []⟩).1
          [.start ⟨"/srv/appA/error.log", ""⟩,
            .start ⟨"/srv/appA/exception.log", ""⟩])).1.spawned.drop 2
        = [⟨"/srv/appA/error.log", ""⟩]
      ∧ ∀ w ∈ (globFiles twoFiles [] [⟨"/srv/appA/*.log", ""⟩]
          [[.ret ⟨"/srv/appA/error.log", ""⟩]]
          (workerSteps (globFiles twoFiles [] [⟨"/srv/appA/*.log", ""⟩] []
              ⟨NewWorkerRegistry, [], [], []⟩).1
            [.start ⟨"/srv/appA/error.log", ""⟩,
              .start ⟨"/srv/appA/exception.log", ""⟩])).1.spawned.drop 2,
          w.file ≠ "/srv/appA/exception.log" :=
  ⟨by decide,
   globFiles_second_scan_no_respawn twoFiles [] [⟨"/srv/appA/*.log", ""⟩]
      ⟨NewWorkerRegistry, [], [], []⟩ []
      [.start ⟨"/srv/appA/error.log", ""⟩, .start ⟨"/srv/appA/exception.log", ""⟩]
      [[.ret ⟨"/srv/appA/error.log", ""⟩]] "/srv/appA/exception.log" (by decide)
      (by
        intro evs hevs w hw
        simp only [List.mem_singleton] at hevs
        subst hevs
        simp only [List.mem_singleton, WorkerEvent.ret.injEq] at hw
        subst hw
        decide)⟩

/-- C1: evaluation at the failing input. Two specs expand to the same file,
which is neither registered nor excluded; one `globFiles` scan creates two
workers for it, because the path enters the registry only when a worker runs
`wr.Add`, and once both have started two workers for the path are live. -/
theorem globFiles_overlapping_specs_spawn_two_workers :
    (globFiles oneFile [] [⟨"/srv/appA/*.log", ""⟩, ⟨"/srv/*/exception.log", "exc"⟩] []
        ⟨NewWorkerRegistry, [], [], []⟩).1.pending
        = [⟨"/srv/appA/exception.log", ""⟩, ⟨"/srv/appA/exception.log", "exc"⟩]
      ∧ (tailFiles oneFile [⟨"/srv/appA/*.log", ""⟩, ⟨"/srv/*/exception.log", "exc"⟩] []
          [([], [.start ⟨"/srv/appA/exception.log", ""⟩,
            .start ⟨"/srv/appA/exception.log", "exc"⟩])]).live
        = [⟨"/srv/appA/exception.log", ""⟩, ⟨"/srv/appA/exception.log", "exc"⟩]
      ∧ ((tailFiles oneFile [⟨"/srv/appA/*.log", ""⟩, ⟨"/srv/*/exception.log", "exc"⟩] []
          [([], [.start ⟨"/srv/appA/exception.log", ""⟩,
            .start ⟨"/srv/appA/exception.log", "exc"⟩])]).live.filter
            (fun w => w.file == "/srv/appA/exception.log")).length = 2 := by
  decide


/-! ## The time prefix -/

theorem reLit_eq_some (c : Char) (l r : List Char) : reLit c l = some r ↔ l = c :: r := by
  cases l with
  | nil => simp [reLit]
  | cons x xs =>
    simp only [reLit]
    by_cases h : x = c
    · simp [h]
    · simp [h]

theorem reDigits_eq_some (l r : List Char) (h : reDigits l = some r) :
    ∃ d, (d ≠ [] ∧ ∀ x ∈ d, x.isDigit = true) ∧ l = d ++ r := by
  unfold reDigits at h
  split at h
  · cases h
  · rename_i a as heq
    refine ⟨l.takeWhile Char.isDigit, ⟨?_, fun x hx => List.mem_takeWhile_imp hx⟩, ?_⟩
    · rw [heq]
      simp
    · cases h
      exact (List.takeWhile_append_dropWhile _ _).symm

theorem reDigits_append (d : List Char) (c : Char) (r : List Char)
    (hd : d ≠ [] ∧ ∀ x ∈ d, x.isDigit = true) (hc : c.isDigit = false) :
    reDigits (d ++ c :: r) = some (c :: r) := by
  unfold reDigits
  rw [List.takeWhile_append_of_pos hd.2, List.dropWhile_append_of_pos hd.2]
  have h1 : List.takeWhile Char.isDigit (c :: r) = [] := by simp [hc]
  have h2 : List.dropWhile Char.isDigit (c :: r) = c :: r := by simp [hc]
  rw [h1, h2, List.append_nil]
  cases d with
  | nil => exact absurd rfl hd.1
  | cons x xs => rfl

theorem reTimeMatch_stamp (d1 d2 d3 d4 d5 d6 r : List Char)
    (h1 : d1 ≠ [] ∧ ∀ x ∈ d1, x.isDigit = true) (h2 : d2 ≠ [] ∧ ∀ x ∈ d2, x.isDigit = true)
    (h3 : d3 ≠ [] ∧ ∀ x ∈ d3, x.isDigit = true) (h4 : d4 ≠ [] ∧ ∀ x ∈ d4, x.isDigit = true)
    (h5 : d5 ≠ [] ∧ ∀ x ∈ d5, x.isDigit = true) (h6 : d6 ≠ [] ∧ ∀ x ∈ d6, x.isDigit = true) :
    reTimeMatch ('[' :: (d1 ++ '-' :: (d2 ++ '-' :: (d3 ++ ' ' :: (d4 ++ '-' :: (d5 ++ '-' ::
      (d6 ++ ']' :: ' ' :: r))))))) = some r := by
  unfold reTimeMatch
  simp only [reLit, if_true, Option.bind_eq_bind, Option.some_bind,
    reDigits_append d1 '-' _ h1 (by decide), reDigits_append d2 '-' _ h2 (by decide),
    reDigits_append d3 ' ' _ h3 (by decide), reDigits_append d4 '-' _ h4 (by decide),
    reDigits_append d5 '-' _ h5 (by decide), reDigits_append d6 ']' _ h6 (by decide)]

theorem reTimeMatch_eq_some (l r : List Char) (h : reTimeMatch l = some r) :
    ∃ d1 d2 d3 d4 d5 d6 : List Char,
      (d1 ≠ [] ∧ ∀ x ∈ d1, x.isDigit = true) ∧ (d2 ≠ [] ∧ ∀ x ∈ d2, x.isDigit = true)
        ∧ (d3 ≠ [] ∧ ∀ x ∈ d3, x.isDigit = true) ∧ (d4 ≠ [] ∧ ∀ x ∈ d4, x.isDigit = true)
        ∧ (d5 ≠ [] ∧ ∀ x ∈ d5, x.isDigit = true) ∧ (d6 ≠ [] ∧ ∀ x ∈ d6, x.isDigit = true)
        ∧ l = '[' :: (d1 ++ '-' :: (d2 ++ '-' :: (d3 ++ ' ' :: (d4 ++ '-' :: (d5 ++ '-' ::
            (d6 ++ ']' :: ' ' :: r)))))) := by
  unfold reTimeMatch at h
  simp only [Option.bind_eq_bind, Option.bind_eq_some] at h
  obtain ⟨a13, ⟨a12, ⟨a11, ⟨a10, ⟨a9, ⟨a8, ⟨a7, ⟨a6, ⟨a5, ⟨a4, ⟨a3, ⟨a2, ⟨a1, e1, e2⟩, e3⟩, e4⟩,
    e5⟩, e6⟩, e7⟩, e8⟩, e9⟩, e10⟩, e11⟩, e12⟩, e13⟩, e14⟩ := h
  rw [reLit_eq_some] at e1 e3 e5 e7 e9 e11 e13 e14
  obtain ⟨d1, hd1, f1⟩ := reDigits_eq_some _ _ e2
  obtain ⟨d2, hd2, f2⟩ := reDigits_eq_some _ _ e4
  obtain ⟨d3, hd3, f3⟩ := reDigits_eq_some _ _ e6
  obtain ⟨d4, hd4, f4⟩ := reDigits_eq_some _ _ e8
  obtain ⟨d5, hd5, f5⟩ := reDigits_eq_some _ _ e10
  obtain ⟨d6, hd6, f6⟩ := reDigits_eq_some _ _ e12
  refine ⟨d1, d2, d3, d4, d5, d6, hd1, hd2, hd3, hd4, hd5, hd6, ?_⟩
  rw [e1, f1, e3, f2, e5, f3, e7, f4, e9, f5, e11, f6, e13, e14]

theorem isDigits_data (d : String) (h : IsDigits d) : d.data ≠ [] ∧ ∀ x ∈ d.data, x.isDigit = true :=
  ⟨fun hnil => h.1 (String.ext hnil), h.2⟩

theorem reTimeReplaceAllString_stamp (d1 d2 d3 d4 d5 d6 rest : String)
    (h1 : IsDigits d1) (h2 : IsDigits d2) (h3 : IsDigits d3) (h4 : IsDigits d4)
    (h5 : IsDigits d5) (h6 : IsDigits d6) :
    reTimeReplaceAllString ("[" ++ d1 ++ "-" ++ d2 ++ "-" ++ d3 ++ " " ++ d4 ++ "-" ++ d5 ++ "-"
      ++ d6 ++ "] " ++ rest) = rest := by
  unfold reTimeReplaceAllString
  have hdata : ("[" ++ d1 ++ "-" ++ d2 ++ "-" ++ d3 ++ " " ++ d4 ++ "-" ++ d5 ++ "-"
      ++ d6 ++ "] " ++ rest).data
      = '[' :: (d1.data ++ '-' :: (d2.data ++ '-' :: (d3.data ++ ' ' :: (d4.data ++ '-' ::
          (d5.data ++ '-' :: (d6.data ++ ']' :: ' ' :: rest.data)))))) := by
    simp [String.data_append]
  rw [hdata, reTimeMatch_stamp _ _ _ _ _ _ _ (isDigits_data _ h1) (isDigits_data _ h2)
    (isDigits_data _ h3) (isDigits_data _ h4) (isDigits_data _ h5) (isDigits_data _ h6)]

theorem reTimeReplaceAllString_no_stamp (line : String) (h : ¬ HasTimeStamp line) :
    reTimeReplaceAllString line = line := by
  unfold reTimeReplaceAllString
  cases hm : reTimeMatch line.data with
  | none => rfl
  | some r =>
    exfalso
    apply h
    obtain ⟨d1, d2, d3, d4, d5, d6, g1, g2, g3, g4, g5, g6, hl⟩ := reTimeMatch_eq_some _ _ hm
    refine ⟨⟨d1⟩, ⟨d2⟩, ⟨d3⟩, ⟨d4⟩, ⟨d5⟩, ⟨d6⟩, ⟨r⟩, ?_, ?_, ?_, ?_, ?_, ?_, ?_⟩
    · exact ⟨fun e => g1.1 (congrArg String.data e), g1.2⟩
    · exact ⟨fun e => g2.1 (congrArg String.data e), g2.2⟩
    · exact ⟨fun e => g3.1 (congrArg String.data e), g3.2⟩
    · exact ⟨fun e => g4.1 (congrArg String.data e), g4.2⟩
    · exact ⟨fun e => g5.1 (congrArg String.data e), g5.2⟩
    · exact ⟨fun e => g6.1 (congrArg String.data e), g6.2⟩
    · apply String.ext
      rw [hl]
      simp [String.data_append]

/-! ## The group label and the category label -/

theorem reGroupMatch_group (g rest : List Char) (hg : g ≠ []) (hs : '/' ∉ g) :
    reGroupMatch ('/' :: 's' :: 'r' :: 'v' :: '/' :: (g ++ '/' :: rest)) = some g := by
  have hall : ∀ a ∈ g, (a != '/') = true := by
    intro a ha
    simp only [bne_iff_ne, ne_eq]
    rintro rfl
    exact hs ha
  have h1 : List.takeWhile (fun c => c != '/') (g ++ '/' :: rest) = g := by
    rw [List.takeWhile_append_of_pos hall]
    simp
  have h2 : List.dropWhile (fun c => c != '/') (g ++ '/' :: rest) = '/' :: rest := by
    rw [List.dropWhile_append_of_pos hall]
    simp
  simp only [reGroupMatch, h1, h2]

theorem reGroupMatch_eq_some (l g : List Char) (h : reGroupMatch l = some g) :
    g ≠ [] ∧ '/' ∉ g ∧ ∃ rest, l = '/' :: 's' :: 'r' :: 'v' :: '/' :: (g ++ '/' :: rest) := by
  unfold reGroupMatch at h
  split at h
  · rename_i rest
    have hl := List.takeWhile_append_dropWhile (fun c => c != '/') rest
    split at h
    · cases h
    · rename_i tail hd hne
      cases h
      refine ⟨hne, ?_, tail, ?_⟩
      · intro hmem
        have := List.mem_takeWhile_imp hmem
        simp at this
      · rw [hd] at hl
        rw [hl]
    · cases h
  · cases h

theorem groupName_eq (file : String) :
    groupName file = match reGroupMatch file.data with
      | some g => String.mk g
      | none => "" := by
  unfold groupName reGroupFindAllStringSubmatch
  cases reGroupMatch file.data <;> rfl

theorem groupName_group (g rest : String) (hg : g ≠ "") (hs : '/' ∉ g.data) :
    groupName ("/srv/" ++ g ++ "/" ++ rest) = g := by
  rw [groupName_eq]
  have hdata : ("/srv/" ++ g ++ "/" ++ rest).data
      = '/' :: 's' :: 'r' :: 'v' :: '/' :: (g.data ++ '/' :: rest.data) := by
    simp [String.data_append]
  rw [hdata, reGroupMatch_group _ _ (fun hnil => hg (String.ext hnil)) hs]

theorem groupName_no_group (file : String) (h : ¬ HasGroup file) : groupName file = "" := by
  rw [groupName_eq]
  cases hm : reGroupMatch file.data with
  | none => rfl
  | some g =>
    exfalso
    apply h
    obtain ⟨h1, h2, rest, h3⟩ := reGroupMatch_eq_some _ _ hm
    refine ⟨⟨g⟩, ⟨rest⟩, fun e => h1 (congrArg String.data e), h2, ?_⟩
    apply String.ext
    rw [h3]
    simp [String.data_append]

theorem reExtensionReplaceAllString_log (c : String) :
    reExtensionReplaceAllString (c ++ ".log") = c := by
  unfold reExtensionReplaceAllString
  have hdata : (c ++ ".log").data.reverse = 'g' :: 'o' :: 'l' :: '.' :: c.data.reverse := by
    simp [String.data_append]
  rw [hdata]
  simp

theorem reExtensionReplaceAllString_no_log (s : String) (h : ¬ ∃ c : String, s = c ++ ".log") :
    reExtensionReplaceAllString s = s := by
  unfold reExtensionReplaceAllString
  split
  · rename_i r heq
    exfalso
    apply h
    refine ⟨⟨r.reverse⟩, ?_⟩
    apply String.ext
    have := congrArg List.reverse heq
    rw [List.reverse_reverse] at this
    rw [this]
    simp [String.data_append]
  · rfl

theorem not_hasTimeStamp_of_no_match (line : String) (h : reTimeMatch line.data = none) :
    ¬ HasTimeStamp line := by
  rintro ⟨d1, d2, d3, d4, d5, d6, rest, h1, h2, h3, h4, h5, h6, rfl⟩
  have hdata : ("[" ++ d1 ++ "-" ++ d2 ++ "-" ++ d3 ++ " " ++ d4 ++ "-" ++ d5 ++ "-"
      ++ d6 ++ "] " ++ rest).data
      = '[' :: (d1.data ++ '-' :: (d2.data ++ '-' :: (d3.data ++ ' ' :: (d4.data ++ '-' ::
          (d5.data ++ '-' :: (d6.data ++ ']' :: ' ' :: rest.data)))))) := by
    simp [String.data_append]
  rw [hdata, reTimeMatch_stamp _ _ _ _ _ _ _ (isDigits_data _ h1) (isDigits_data _ h2)
    (isDigits_data _ h3) (isDigits_data _ h4) (isDigits_data _ h5) (isDigits_data _ h6)] at h
  cases h

theorem not_hasGroup_of_no_match (file : String) (h : reGroupMatch file.data = none) :
    ¬ HasGroup file := by
  rintro ⟨g, rest, hg, hs, rfl⟩
  have hdata : ("/srv/" ++ g ++ "/" ++ rest).data
      = '/' :: 's' :: 'r' :: 'v' :: '/' :: (g.data ++ '/' :: rest.data) := by
    simp [String.data_append]
  rw [hdata, reGroupMatch_group _ _ (fun hnil => hg (String.ext hnil)) hs] at h
  cases h

theorem not_log_of_reverse (s : String) (h : s.data.reverse.take 4 ≠ ['g', 'o', 'l', '.']) :
    ¬ ∃ c : String, s = c ++ ".log" := by
  rintro ⟨c, rfl⟩
  apply h
  simp [String.data_append]

/-- C4: for a path `/srv/<g>/<rest>` with `g` non-empty and without `/`, whose
base name is `c.log`, and a line without a bracketed time prefix, the final text
is `g: c: line`; a path that does not start with `/srv/<segment>/` has the empty
group label; a base name that does not end in `.log` is the category label as a
whole. -/
theorem lineText_labels (file : String) :
    (∀ g rest c line : String, g ≠ "" → '/' ∉ g.data → file = "/srv/" ++ g ++ "/" ++ rest →
        pathBase file = c ++ ".log" → ¬ HasTimeStamp line →
        lineText file line = g ++ ": " ++ c ++ ": " ++ line)
      ∧ (¬ HasGroup file → groupName file = "")
      ∧ ((¬ ∃ c : String, pathBase file = c ++ ".log") → strSeverity file = pathBase file) := by
  refine ⟨?_, groupName_no_group file, reExtensionReplaceAllString_no_log (pathBase file)⟩
  intro g rest c line hg hs hfile hbase hline
  unfold lineText strSeverity
  rw [hbase, reExtensionReplaceAllString_log, reTimeReplaceAllString_no_stamp line hline, hfile,
    groupName_group g rest hg hs]

theorem lineText_labels_witness :
    lineText "/srv/appA/exception.log" "boom" = "appA: exception: boom"
      ∧ groupName "/var/log/syslog" = ""
      ∧ strSeverity "/var/log/syslog" = "syslog" :=
  ⟨((lineText_labels "/srv/appA/exception.log").1 "appA" "exception.log" "exception" "boom"
      (by decide) (by decide) (by decide) (by decide)
      (not_hasTimeStamp_of_no_match "boom" (by decide))).trans (by decide),
   (lineText_labels "/var/log/syslog").2.1 (not_hasGroup_of_no_match _ (by decide)),
   ((lineText_labels "/var/log/syslog").2.2
      (not_log_of_reverse _ (by decide))).trans (by decide)⟩

/-- C5: a line that starts with `[d-d-d d-d-d] `, each `d` a non-empty run of
decimal digits, loses exactly that prefix before the labels are put in front,
the rest of the line being kept as it is; a line without such a prefix is
carried into the final text unchanged. -/
theorem lineText_time_stamp (file : String) :
    (∀ d1 d2 d3 d4 d5 d6 rest : String,
        IsDigits d1 → IsDigits d2 → IsDigits d3 → IsDigits d4 → IsDigits d5 → IsDigits d6 →
        lineText file ("[" ++ d1 ++ "-" ++ d2 ++ "-" ++ d3 ++ " " ++ d4 ++ "-" ++ d5 ++ "-"
            ++ d6 ++ "] " ++ rest)
          = groupName file ++ ": " ++ strSeverity file ++ ": " ++ rest)
      ∧ (∀ line : String, ¬ HasTimeStamp line →
        lineText file line = groupName file ++ ": " ++ strSeverity file ++ ": " ++ line) := by
  constructor
  · intro d1 d2 d3 d4 d5 d6 rest h1 h2 h3 h4 h5 h6
    unfold lineText
    rw [reTimeReplaceAllString_stamp d1 d2 d3 d4 d5 d6 rest h1 h2 h3 h4 h5 h6]
  · intro line hline
    unfold lineText
    rw [reTimeReplaceAllString_no_stamp line hline]

theorem lineText_time_stamp_witness :
    lineText "/srv/appA/exception.log" "[2024-01-02 03-04-05] boom" = "appA: exception: boom"
      ∧ lineText "/srv/appA/exception.log" "[2024-01-02 03-04-05] [1-2-3 4-5-6] boom"
        = "appA: exception: [1-2-3 4-5-6] boom"
      ∧ lineText "/srv/appA/exception.log" "x [2024-01-02 03-04-05] boom"
        = "appA: exception: x [2024-01-02 03-04-05] boom" :=
  ⟨((lineText_time_stamp "/srv/appA/exception.log").1 "2024" "01" "02" "03" "04" "05" "boom"
      ⟨by decide, by decide⟩ ⟨by decide, by decide⟩ ⟨by decide, by decide⟩
      ⟨by decide, by decide⟩ ⟨by decide, by decide⟩ ⟨by decide, by decide⟩).trans (by decide),
   ((lineText_time_stamp "/srv/appA/exception.log").1 "2024" "01" "02" "03" "04" "05"
      "[1-2-3 4-5-6] boom"
      ⟨by decide, by decide⟩ ⟨by decide, by decide⟩ ⟨by decide, by decide⟩
      ⟨by decide, by decide⟩ ⟨by decide, by decide⟩ ⟨by decide, by decide⟩).trans (by decide),
   ((lineText_time_stamp "/srv/appA/exception.log").2 "x [2024-01-02 03-04-05] boom"
      (not_hasTimeStamp_of_no_match _ (by decide))).trans (by decide)⟩

end RemoteSyslog
